import Mathlib

/-!
Verification development for the deal-submission spreadsheet backend
(`backend/server.py`).  Worksheets are modelled as finite grids of cell
values, Python dictionaries as insertion-ordered association lists, and
each extraction / mapping routine of `FileProcessor` is translated into an
executable Lean function.  The theorems at the end of the file settle the
behavioural claims about these routines.
-/

set_option maxHeartbeats 1000000

namespace DealSub

/-- Cell values, mirroring the Python value types that can appear in an
openpyxl cell or flow through the transformation engine.  `none` stands for
Python `None`/an empty cell.  A float is modelled as the exact scaled
decimal `num / 10 ^ exp`; every float the source manipulates is parsed
from a decimal literal, for which this model is exact. -/
inductive Value where
  | none
  | str (s : String)
  | int (n : Int)
  | float (num : Int) (exp : Nat)
  | bool (b : Bool)
  | date (y : Int) (m : Nat) (d : Nat)
deriving DecidableEq

/-- Python truthiness (`bool(v)`) for the modelled value types. -/
def pyTruthy : Value → Bool
  | Value.none => false
  | Value.str s => s != ""
  | Value.int n => n != 0
  | Value.float num _ => num != 0
  | Value.bool b => b
  | Value.date _ _ _ => true

/-- Zero-pad a natural number to two decimal digits (strftime `%m`/`%d`/`%y`). -/
def pad2 (n : Nat) : String :=
  if n < 10 then "0" ++ toString n else toString n

/-- Zero-pad a year to four decimal digits (`str(datetime)` year field). -/
def pad4 (n : Int) : String :=
  if n < 10 then "000" ++ toString n
  else if n < 100 then "00" ++ toString n
  else if n < 1000 then "0" ++ toString n
  else toString n

/-- Decimal rendering of the scaled float `num / 10 ^ exp` (Python
`str(float)`), e.g. `-3/10^1` renders as `-0.3` and `5/10^0` as `5.0`. -/
def floatRepr (num : Int) (exp : Nat) : String :=
  let sgn := if num < 0 then "-" else ""
  let ds := toString num.natAbs
  let ds := if ds.length ≤ exp then
    String.mk (List.replicate (exp + 1 - ds.length) '0' ++ ds.data) else ds
  sgn ++ String.mk (ds.data.take (ds.length - exp)) ++ "." ++
    String.mk (ds.data.drop (ds.length - exp) ++ (if exp = 0 then ['0'] else []))

/-- Python `str(v)`. -/
def pyStr : Value → String
  | Value.none => "None"
  | Value.str s => s
  | Value.int n => toString n
  | Value.float num exp => floatRepr num exp
  | Value.bool b => if b then "True" else "False"
  | Value.date y m d => pad4 y ++ "-" ++ pad2 m ++ "-" ++ pad2 d ++ " 00:00:00"

/-- Python `str.lower()` (ASCII, sufficient for the labels involved). -/
def pyLower (s : String) : String :=
  String.mk (s.data.map Char.toLower)

/-- Python `str.upper()` (ASCII, sufficient for the markers involved). -/
def pyUpper (s : String) : String :=
  String.mk (s.data.map Char.toUpper)

/-- `isPrefixL n l` decides whether `n` is a prefix of `l`. -/
def isPrefixL : List Char → List Char → Bool
  | [], _ => true
  | _ :: _, [] => false
  | a :: as, b :: bs => a == b && isPrefixL as bs

/-- `containsSubL n l` decides whether `n` occurs as a contiguous substring
of `l` (the semantics of Python `n in l` on strings). -/
def containsSubL (needle : List Char) : List Char → Bool
  | [] => isPrefixL needle []
  | c :: cs => isPrefixL needle (c :: cs) || containsSubL needle cs

/-- Python substring test `needle in hay`. -/
def containsSub (needle hay : String) : Bool :=
  containsSubL needle.data hay.data

/-- Python `str.startswith(pre)`. -/
def pyStartsWith (s pre : String) : Bool :=
  isPrefixL pre.data s.data

/-- `sep.join(parts)` on character lists. -/
def joinSepList (sep : List Char) : List (List Char) → List Char
  | [] => []
  | [w] => w
  | w :: ws => w ++ sep ++ joinSepList sep ws

/-- Python `sep.join(parts)`. -/
def pyJoin (sep : String) (parts : List String) : String :=
  String.mk (joinSepList sep.data (parts.map (fun p => p.data)))

/-- Accumulator worker for `splitWS`: `acc` holds the reversed current
token. -/
def splitWSAux : List Char → List Char → List (List Char)
  | [], acc => if acc.isEmpty then [] else [acc.reverse]
  | c :: cs, acc =>
    if c.isWhitespace then
      if acc.isEmpty then splitWSAux cs [] else acc.reverse :: splitWSAux cs []
    else splitWSAux cs (c :: acc)

/-- Python `str.split()` (no argument): split on runs of whitespace,
discarding empty pieces. -/
def splitWS (l : List Char) : List (List Char) :=
  splitWSAux l []

/-- Python `' '.join(tokens)` on character lists. -/
def joinSp : List (List Char) → List Char
  | [] => []
  | [w] => w
  | w :: ws => w ++ ' ' :: joinSp ws

/-- Python `str.strip()`: drop leading and trailing whitespace. -/
def stripWS (l : List Char) : List Char :=
  ((l.dropWhile Char.isWhitespace).reverse.dropWhile Char.isWhitespace).reverse

/-- Python `str.strip()` on strings. -/
def pyStrip (s : String) : String :=
  String.mk (stripWS s.data)

/-- `FileProcessor.normalize_column_name`: on a falsy (empty) string return
it unchanged, otherwise `' '.join(str(name).split())` followed by
`.strip()`. -/
def normalize_column_name (s : String) : String :=
  if s = "" then s
  else String.mk (stripWS (joinSp (splitWS s.data)))

/-- A worksheet: a finite extent and a cell-value assignment.  Reading a
cell outside the extent yields an empty (`None`) cell, matching openpyxl
(`sheet.cell` materialises empty cells on demand; the cells it creates
never hold a value, so the fixed extent is observationally faithful). -/
structure Sheet where
  maxRow : Nat
  maxCol : Nat
  cell : Nat → Nat → Value

/-- `sheet.cell(row=r, column=c).value` (1-based indices). -/
def Sheet.get (s : Sheet) (r c : Nat) : Value :=
  if 1 ≤ r ∧ r ≤ s.maxRow ∧ 1 ≤ c ∧ c ≤ s.maxCol then s.cell r c else Value.none

/-- Row-major enumeration of all cell positions of a sheet
(top-to-bottom, left-to-right), as iterated by the full-sheet scans. -/
def cellsOf (s : Sheet) : List (Nat × Nat) :=
  (List.range' 1 s.maxRow).flatMap (fun r => (List.range' 1 s.maxCol).map (fun c => (r, c)))

/-! ### Calendar arithmetic for `datetime`
Python `datetime` dates are embedded as proleptic-Gregorian day counts
(days since 1970-01-01), using the standard civil-calendar conversion, so
that `datetime(1899, 12, 30) + timedelta(days=v)` becomes integer addition
on day counts. -/

/-- Day count of the civil date `y-m-d` (days since 1970-01-01). -/
def daysFromCivil (y : Int) (m : Nat) (d : Nat) : Int :=
  let yr : Int := if m ≤ 2 then y - 1 else y
  let era : Int := (if 0 ≤ yr then yr else yr - 399) / 400
  let yoe : Int := yr - era * 400
  let mp : Nat := (m + 9) % 12
  let doy : Nat := (153 * mp + 2) / 5 + d - 1
  let doe : Int := yoe * 365 + yoe / 4 - yoe / 100 + doy
  era * 146097 + doe - 719468

/-- Civil date `(y, m, d)` of a day count (inverse of `daysFromCivil`). -/
def civilFromDays (z0 : Int) : Int × Nat × Nat :=
  let z : Int := z0 + 719468
  let era : Int := (if 0 ≤ z then z else z - 146096) / 146097
  let doe : Nat := (z - era * 146097).toNat
  let yoe : Nat := (doe - doe / 1460 + doe / 36524 - doe / 146096) / 365
  let y : Int := (yoe : Int) + era * 400
  let doy : Nat := doe - (365 * yoe + yoe / 4 - yoe / 100)
  let mp : Nat := (5 * doy + 2) / 153
  let d : Nat := doy - (153 * mp + 2) / 5 + 1
  let m : Nat := if mp < 10 then mp + 3 else mp - 9
  (if m ≤ 2 then y + 1 else y, m, d)

/-- strftime directive expansion for a date value (directives used by the
source: `%Y`, `%m`, `%d`, `%y`; other characters pass through). -/
def strftimeChars (y : Int) (m d : Nat) : List Char → List Char
  | [] => []
  | '%' :: c :: rest =>
    (match c with
     | 'Y' => (toString y).data
     | 'm' => (pad2 m).data
     | 'd' => (pad2 d).data
     | 'y' => (pad2 ((y % 100).toNat)).data
     | '%' => ['%']
     | other => ['%', other]) ++ strftimeChars y m d rest
  | c :: rest => c :: strftimeChars y m d rest

/-- Python `value.strftime(fmt)` for a date value. -/
def pyStrftime (fmt : String) (y : Int) (m d : Nat) : String :=
  String.mk (strftimeChars y m d fmt.data)

/-- `value.strftime('%m/%d/%y')`, the date rendering used for all three
deal-header date fields. -/
def formatMMDDYY (y : Int) (m d : Nat) : String :=
  pyStrftime ("%m/%d/%y") y m d

/-- The spreadsheet serial epoch `datetime(1899, 12, 30)` as a day count. -/
def excelEpoch : Int := daysFromCivil 1899 12 30

/-- Render the civil date of day count `z` as `MM/DD/YY`. -/
def serialFormat (z : Int) : String :=
  formatMMDDYY (civilFromDays z).1 (civilFromDays z).2.1 (civilFromDays z).2.2

/-- `(datetime(1899, 12, 30) + timedelta(days=v)).strftime('%m/%d/%y')`,
returning `none` when the sum leaves `datetime`'s supported range
(years 1–9999), where Python raises and the `except: pass` skips the
candidate. -/
def serialToDateString (v : Int) : Option String :=
  if daysFromCivil 1 1 1 ≤ excelEpoch + v ∧ excelEpoch + v ≤ daysFromCivil 9999 12 31 then
    some (serialFormat (excelEpoch + v))
  else Option.none

/-! ### `extract_deal_header` -/

/-- The deal header record built by `extract_deal_header`. -/
structure DealHeader where
  deal_name : String
  vendor_id : String
  deal_start_date : String
  deal_end_date : String
  deal_cost_date : String
deriving DecidableEq

/-- The label strings a probed manufacturer value must not equal
(`val_str.lower() not in [...]`). -/
def otherLabels : List String :=
  ["deal start date", "deal end date", "deal cost date", "broker", "sales rep"]

/-- One probe step of the manufacturer fallback scan: accept a truthy cell
whose stripped text is non-empty and is not another label. -/
def vendorCandidate (v : Value) : Option String :=
  if pyTruthy v && (pyStrip (pyStr v) != "") then
    let val := pyStrip (pyStr v)
    if !(otherLabels.contains (pyLower val)) then some val else Option.none
  else Option.none

/-- The vendor-id probe for a cell that matched the `manufacturer` label:
try the cell two columns to the right; only if that cell is empty, fall
back to the first acceptable cell at offsets 1..9.  A non-empty second
cell that happens to be another label yields nothing (no fallback). -/
def probeVendor (s : Sheet) (r c : Nat) : Option String :=
  let v2 := s.get r (c + 2)
  if pyTruthy v2 && (pyStrip (pyStr v2) != "") then
    let val := pyStrip (pyStr v2)
    if !(otherLabels.contains (pyLower val)) then some val else Option.none
  else
    ((List.range' 1 9).filterMap (fun off => vendorCandidate (s.get r (c + off)))).head?

/-- Interpretation of one probed cell for a date field: skip falsy cells;
format native dates as `MM/DD/YY`; interpret numerics (Python `bool` is an
`int`) as spreadsheet serials (skipping on overflow); otherwise accept the
non-empty stripped text verbatim. -/
def dateCandidate (v : Value) : Option String :=
  if pyTruthy v then
    match v with
    | Value.date y m d => some (formatMMDDYY y m d)
    | Value.int n => serialToDateString n
    | Value.float num exp => serialToDateString (Int.ediv num ((10 : Int) ^ exp))
    | Value.bool b => serialToDateString (if b then 1 else 0)
    | _ =>
      if pyStrip (pyStr v) != "" then some (pyStrip (pyStr v)) else Option.none
  else Option.none

/-- The date probe: first accepted candidate at offsets 1..11 to the
right. -/
def probeDate (s : Sheet) (r c : Nat) : Option String :=
  ((List.range' 1 11).filterMap (fun off => dateCandidate (s.get r (c + off)))).head?

/-- Processing of one cell of the full-sheet scan of
`extract_deal_header`: the `elif` chain of label predicates, each
triggering its rightward probe and overwriting its field on success. -/
def dealStep (s : Sheet) (h : DealHeader) (rc : Nat × Nat) : DealHeader :=
  match s.get rc.1 rc.2 with
  | Value.str sv =>
    if sv != "" then
      let low := pyStrip (pyLower sv)
      if low == "manufacturer" then
        match probeVendor s rc.1 rc.2 with
        | some val => { h with vendor_id := val }
        | Option.none => h
      else if containsSub ("deal start date") low then
        match probeDate s rc.1 rc.2 with
        | some val => { h with deal_start_date := val }
        | Option.none => h
      else if containsSub ("deal end date") low then
        match probeDate s rc.1 rc.2 with
        | some val => { h with deal_end_date := val }
        | Option.none => h
      else if containsSub ("deal cost date") low then
        match probeDate s rc.1 rc.2 with
        | some val => { h with deal_cost_date := val }
        | Option.none => h
      else h
    else h
  | _ => h

/-- `FileProcessor.extract_deal_header`: row-major full-sheet scan folding
`dealStep` over every cell.  The surrounding `try/except` returns `None`
only on a raised exception, which the pure model cannot produce, so the
result is always `some`. -/
def extract_deal_header (s : Sheet) (deal_name : String) : Option DealHeader :=
  some ((cellsOf s).foldl (dealStep s) ⟨deal_name, "", "", "", ""⟩)

/-- A qualifying manufacturer match at a cell: the cell holds the exact
(case-insensitive, stripped) text `manufacturer` and its probe produces a
value. -/
def qualifyVendor (s : Sheet) (rc : Nat × Nat) : Option String :=
  match s.get rc.1 rc.2 with
  | Value.str sv =>
    if sv != "" && (pyStrip (pyLower sv) == "manufacturer") then probeVendor s rc.1 rc.2
    else Option.none
  | _ => Option.none

/-- A qualifying deal-start-date match at a cell (the `elif` chain reaches
this label only past the manufacturer test). -/
def qualifyStart (s : Sheet) (rc : Nat × Nat) : Option String :=
  match s.get rc.1 rc.2 with
  | Value.str sv =>
    if sv != "" && !(pyStrip (pyLower sv) == "manufacturer")
        && containsSub ("deal start date") (pyStrip (pyLower sv)) then
      probeDate s rc.1 rc.2
    else Option.none
  | _ => Option.none

/-- A qualifying deal-end-date match at a cell. -/
def qualifyEnd (s : Sheet) (rc : Nat × Nat) : Option String :=
  match s.get rc.1 rc.2 with
  | Value.str sv =>
    if sv != "" && !(pyStrip (pyLower sv) == "manufacturer")
        && !(containsSub ("deal start date") (pyStrip (pyLower sv)))
        && containsSub ("deal end date") (pyStrip (pyLower sv)) then
      probeDate s rc.1 rc.2
    else Option.none
  | _ => Option.none

/-- A qualifying deal-cost-date match at a cell. -/
def qualifyCost (s : Sheet) (rc : Nat × Nat) : Option String :=
  match s.get rc.1 rc.2 with
  | Value.str sv =>
    if sv != "" && !(pyStrip (pyLower sv) == "manufacturer")
        && !(containsSub ("deal start date") (pyStrip (pyLower sv)))
        && !(containsSub ("deal end date") (pyStrip (pyLower sv)))
        && containsSub ("deal cost date") (pyStrip (pyLower sv)) then
      probeDate s rc.1 rc.2
    else Option.none
  | _ => Option.none

/-! ### `extract_ad_zone_id` -/

/-- The zone labels, keyed by lowercase match text, valued by canonical
display string, in the fixed priority (dict insertion) order. -/
def tprLabels : List (String × String) :=
  [("tpr all stores", "TPR All Stores"),
   ("tpr price chopper", "TPR Price Chopper"),
   ("tpr sunfresh/apple", "TPR Sunfresh/Apple"),
   ("tpr markets", "Tpr Markets"),
   ("tpr stores with prebooks only", "TPR Stores with Prebooks only")]

/-- The marker texts recognised as a checked box. -/
def markerSet : List String := ["X", "YES", "Y", "1", "TRUE"]

/-- The first zone label (in priority order) whose key occurs in the
cell's stripped, lowercased text; non-string or empty cells match no
label. -/
def cellLabel (v : Value) : Option String :=
  match v with
  | Value.str sv =>
    if sv != "" then
      (tprLabels.find? (fun p => containsSub p.1 (pyLower (pyStrip sv)))).map (fun p => p.2)
    else Option.none
  | _ => Option.none

/-- Marker probe for a matched label cell: `for offset in range(1, 15)`,
i.e. offsets 1..14, scanning for a truthy cell whose stripped uppercased
text is in the marker set (non-marker cells are passed over). -/
def zoneProbe (s : Sheet) (r c : Nat) : Bool :=
  (List.range' 1 14).any (fun off =>
    let v := s.get r (c + off)
    pyTruthy v && markerSet.contains (pyUpper (pyStrip (pyStr v))))

/-- The display string recorded by one cell of the zone scan, if any:
the cell's first matching label, provided its marker probe succeeds. -/
def zoneHit (s : Sheet) (rc : Nat × Nat) : Option String :=
  match cellLabel (s.get rc.1 rc.2) with
  | some disp => if zoneProbe s rc.1 rc.2 then some disp else Option.none
  | Option.none => Option.none

/-- The `marked_tpr_types` accumulator of `extract_ad_zone_id`: row-major
scan appending each hit display string unless already recorded. -/
def zoneMarked (s : Sheet) : List String :=
  (cellsOf s).foldl (fun acc rc =>
    match zoneHit s rc with
    | some disp => if acc.contains disp then acc else acc ++ [disp]
    | Option.none => acc) []

/-- `FileProcessor.extract_ad_zone_id`: the marked labels joined with
`' ~'` (an empty collection joins to the empty string). -/
def extract_ad_zone_id (s : Sheet) : String :=
  pyJoin (" ~") (zoneMarked s)

/-! ### Region location and data extraction (`extract_cosentino_data`) -/

/-- `'AWG Item Code' in cell` for a truthy string cell
(`find_awg_header_row`'s per-cell test). -/
def isAwgCell (v : Value) : Bool :=
  match v with
  | Value.str sv => sv != "" && containsSub ("AWG Item Code") sv
  | _ => false

/-- `FileProcessor.find_awg_header_row`: index (1-based) of the first row
containing a marker cell. -/
def find_awg_header_row (s : Sheet) : Option Nat :=
  (List.range' 1 s.maxRow).find? (fun r =>
    (List.range' 1 s.maxCol).any (fun c => isAwgCell (s.get r c)))

/-- Per-row stop test of `find_manufacturer_stop_row`: the row has a
column B (`len(row) > 1`) holding a truthy string containing
`manufacturer` case-insensitively. -/
def isStopRow (s : Sheet) (r : Nat) : Bool :=
  decide (1 < s.maxCol) &&
  (match s.get r 2 with
   | Value.str sv => sv != "" && containsSub ("manufacturer") (pyLower sv)
   | _ => false)

/-- `FileProcessor.find_manufacturer_stop_row`: first stop row at index ≥
`start` (iter_rows from `min_row=start` to the last row). -/
def find_manufacturer_stop_row (s : Sheet) (start : Nat) : Option Nat :=
  (List.range' start (s.maxRow + 1 - start)).find? (isStopRow s)

/-- The normalized header list built from the header row: one entry per
column, `none` for falsy cells (`normalize_column_name(h) if h else
None`). -/
def headersOf (s : Sheet) (hr : Nat) : List (Option String) :=
  (List.range' 1 s.maxCol).map (fun c =>
    let v := s.get hr c
    if pyTruthy v then some (normalize_column_name (pyStr v)) else Option.none)

/-- Python-dict assignment `d[k] = v` on an insertion-ordered association
list: update the existing entry in place, else append. -/
def dictSet (d : List (String × Value)) (k : String) (v : Value) : List (String × Value) :=
  if d.any (fun p => p.1 == k) then d.map (fun p => if p.1 == k then (k, v) else p)
  else d ++ [(k, v)]

/-- Python `k in d` for the association-list dictionary model. -/
def dictContains (d : List (String × Value)) (k : String) : Bool :=
  d.any (fun p => p.1 == k)

/-- Python `d[k]` (with a default for the impossible missing-key case;
all call sites are guarded by `k in d`). -/
def dictGet (d : List (String × Value)) (k : String) : Value :=
  ((d.find? (fun p => p.1 == k)).map (fun p => p.2)).getD Value.none

/-- The cell-survival test of the data loop: the value is not `None` and
its string form starts with neither `#` nor `=`. -/
def survives (v : Value) : Bool :=
  v != Value.none && !(pyStartsWith (pyStr v) ("#")) && !(pyStartsWith (pyStr v) ("="))

/-- The `row_data` dictionary built for one data row: for each column
index with a valid (non-`None`, non-empty) header, store the cell value if
it survives. -/
def rowRecord (s : Sheet) (headers : List (Option String)) (r : Nat) : List (String × Value) :=
  (List.range' 1 s.maxCol).foldl (fun d c =>
    match headers.get? (c - 1) with
    | some (some h) =>
      if h != "" then
        let v := s.get r c
        if survives v then dictSet d h v else d
      else d
    | _ => d) []

/-- `any(row_data.values())`: the row has at least one truthy surviving
value. -/
def rowIncluded (d : List (String × Value)) : Bool :=
  d.any (fun p => pyTruthy p.2)

/-- The exclusive end row of the data region: the stop row when present,
else one past the last sheet row. -/
def regionEnd (s : Sheet) (hr : Nat) : Nat :=
  match find_manufacturer_stop_row s (hr + 1) with
  | some st => st
  | Option.none => s.maxRow + 1

/-- The row indices iterated by the data loop:
`range(header_row_idx + 1, end_row)`. -/
def regionRows (s : Sheet) (hr : Nat) : List Nat :=
  List.range' (hr + 1) (regionEnd s hr - (hr + 1))

/-- Result record of `extract_cosentino_data`. -/
structure CosExtract where
  valid_headers : List String
  data_rows : List (List (String × Value))
  header_row_idx : Nat
  stop_row_idx : Option Nat
deriving DecidableEq

/-- `FileProcessor.extract_cosentino_data`: locate the header row (raising
`ValueError` when absent), normalize headers, locate the stop row, build
the surviving row records for the region, keep rows with a truthy value,
and return the non-`None` headers with the data and the two indices. -/
def extract_cosentino_data (s : Sheet) : Except String CosExtract :=
  match find_awg_header_row s with
  | Option.none => Except.error ("Could not find 'AWG Item Code' header row")
  | some hr =>
    let headers := headersOf s hr
    let data := (regionRows s hr).foldl (fun acc r =>
      let d := rowRecord s headers r
      if rowIncluded d then acc ++ [d] else acc) []
    Except.ok
      { valid_headers := (headers.filterMap id).filter (fun h => h != ""),
        data_rows := data,
        header_row_idx := hr,
        stop_row_idx := find_manufacturer_stop_row s (hr + 1) }

/-! ### Transformation engine (`apply_transformation`) -/

/-- `re.sub(r'[^0-9.-]', '', s)`: keep only digits, `.` and `-`. -/
def stripNonNumeric (s : String) : String :=
  String.mk (s.data.filter (fun c => c.isDigit || c == '.' || c == '-'))

/-- Numeric value of a list of decimal digits. -/
def digitsToNat (l : List Char) : Nat :=
  l.foldl (fun n c => n * 10 + (c.toNat - '0'.toNat)) 0

/-- Python `float(s)` on decimal literals, as a scaled decimal
`(num, exp)` with value `num / 10 ^ exp`: optional sign, then digits with
an optional fractional part (at least one digit overall); surrounding
whitespace is stripped.  Exponent and special forms are not modelled (the
strings reaching this function are pre-filtered to digits, `.` and `-`).
`none` models a raised `ValueError`. -/
def pyFloatOfString (s : String) : Option (Int × Nat) :=
  let t := (pyStrip s).data
  let core : List Char × Int :=
    match t with
    | '-' :: r => (r, -1)
    | '+' :: r => (r, 1)
    | r => (r, 1)
  let rest := core.1
  let intPart := rest.takeWhile Char.isDigit
  let after := rest.dropWhile Char.isDigit
  match after with
  | [] =>
    if intPart.isEmpty then Option.none
    else some (core.2 * (digitsToNat intPart : Int), 0)
  | '.' :: frac =>
    if frac.all Char.isDigit && !(intPart.isEmpty && frac.isEmpty) then
      some (core.2 * ((digitsToNat intPart : Int) * (10 : Int) ^ frac.length +
        (digitsToNat frac : Int)), frac.length)
    else Option.none
  | _ => Option.none

/-- Python `float(value)` on a raw value (`none` models `TypeError` /
`ValueError`). -/
def pyFloatOfValue : Value → Option (Int × Nat)
  | Value.int n => some (n, 0)
  | Value.float num exp => some (num, exp)
  | Value.bool b => some (if b then (1, 0) else (0, 0))
  | Value.str s => pyFloatOfString s
  | _ => Option.none

/-- Python `int(float)` on a scaled decimal: truncation toward zero
(`Int.tdiv` truncates). -/
def pyTrunc (p : Int × Nat) : Int :=
  Int.tdiv p.1 ((10 : Int) ^ p.2)

/-- Python `str.zfill(width)`: left-pad with zeros to the given width. -/
def zfill (s : String) (width : Nat) : String :=
  String.mk (List.replicate (width - s.length) '0' ++ s.data)

/-- Generic leftmost regex-style search: try the matcher at every suffix
start position, leftmost first. -/
def searchFrom {α : Type} (f : List Char → Option α) : List Char → Option α
  | [] => f []
  | c :: cs =>
    match f (c :: cs) with
    | some m => some m
    | Option.none => searchFrom f cs

/-- Matcher for `(\d+(?:\.\d+)?)` anchored at the current position:
a maximal digit run, optionally followed by `.` and a further digit run. -/
def numRunAt : List Char → Option (List Char)
  | [] => Option.none
  | c :: cs =>
    if c.isDigit then
      let ds := (c :: cs).takeWhile Char.isDigit
      match (c :: cs).dropWhile Char.isDigit with
      | '.' :: r2 =>
        if (r2.takeWhile Char.isDigit).isEmpty then some ds
        else some (ds ++ '.' :: r2.takeWhile Char.isDigit)
      | _ => some ds
    else Option.none

/-- Matcher for `([A-Za-z]+)` anchored at the current position. -/
def alphaRunAt : List Char → Option (List Char)
  | [] => Option.none
  | c :: cs =>
    if c.isAlpha then some ((c :: cs).takeWhile Char.isAlpha) else Option.none

/-- Matcher for `(\d+)\s*for` (case-insensitive) anchored at the current
position, returning the numeric group.  Backtracking the greedy `\d+`
cannot help (a shorter digit run leaves a digit where `f` is required), so
the maximal run is faithful. -/
def priceMultAt : List Char → Option Nat
  | [] => Option.none
  | c :: cs =>
    if c.isDigit then
      let ds := (c :: cs).takeWhile Char.isDigit
      let rest := ((c :: cs).dropWhile Char.isDigit).dropWhile Char.isWhitespace
      if isPrefixL ['f', 'o', 'r'] (rest.map Char.toLower) then some (digitsToNat ds)
      else Option.none
    else Option.none

/-- Python `s.split(sep)` on character lists (single-character
separator). -/
def splitChar (sep : Char) : List Char → List Char → List (List Char)
  | [], acc => [acc.reverse]
  | c :: cs, acc =>
    if c == sep then acc.reverse :: splitChar sep cs []
    else splitChar sep cs (c :: acc)

/-- `rule.split(':')[1]` (empty when the index does not exist; every use
is guarded by a prefix or membership test ensuring a `:` is present). -/
def splitColonSecond (s : String) : String :=
  (((splitChar ':' s.data []).map String.mk).drop 1).headD ("")

/-- `rule.split(':', 1)[1]`: everything after the first `:`. -/
def splitColonRest (s : String) : String :=
  String.mk (joinSepList [':'] ((splitChar ':' s.data []).drop 1))

/-- `FileProcessor.apply_transformation`: rule dispatch on the rule
string.  Branches whose Python code would raise return the original value,
modelling the surrounding `try/except` (marked at each such site). -/
def apply_transformation (value : Value) (rule : String) : Value :=
  if rule == "" || rule == "none" then value
  else if rule == "to_number:float" then
    if pyTruthy value then
      let cleaned := stripNonNumeric (pyStr value)
      if cleaned == "" then Value.none
      else
        match pyFloatOfString cleaned with
        | some p => Value.float p.1 p.2
        | Option.none => value
    else Value.none
  else if containsSub ("Pick the Numeric values") rule then
    if pyTruthy value then
      match searchFrom numRunAt (pyStr value).data with
      | some m => Value.str (String.mk m)
      | Option.none => value
    else value
  else if containsSub ("Pick Alpha values") rule then
    if pyTruthy value then
      match searchFrom alphaRunAt (pyStr value).data with
      | some m => Value.str (String.mk m)
      | Option.none => value
    else value
  else if rule == "normalize_upc" then
    let cleaned := String.mk ((pyStr value).data.filter (fun c => !(c.isWhitespace || c == '-')))
    if cleaned != "" && cleaned.data.all Char.isDigit then Value.str (zfill cleaned 12)
    else Value.str cleaned
  else if pyStartsWith rule ("to_number:") then
    let numType := splitColonSecond rule
    if numType == "int" then
      if pyTruthy value then
        match pyFloatOfValue value with
        | some p => Value.int (pyTrunc p)
        | Option.none => value
      else Value.none
    else if numType == "currency" then
      let cleaned := stripNonNumeric (pyStr value)
      if cleaned == "" then Value.none
      else
        match pyFloatOfString cleaned with
        | some p => Value.float p.1 p.2
        | Option.none => value
    else value
  else if pyStartsWith rule ("parse_date:") then
    match value with
    | Value.date y m d => Value.str (pyStrftime (splitColonSecond rule) y m d)
    | _ => value
  else if rule == "map_deal_type" then
    if pyTruthy value then Value.str (pyStr value) else Value.str ("TPR")
  else if rule == "parse_price_mult" then
    match searchFrom priceMultAt (pyStr value).data with
    | some n => Value.int (n : Int)
    | Option.none => Value.int 1
  else if pyStartsWith rule ("literal:") then
    Value.str (splitColonRest rule)
  else if pyStartsWith rule ("coalesce:") then
    if pyTruthy value then value else Value.none
  else if pyStartsWith rule ("calc:") then value
  else value

/-! ### Mapping repository and row projection -/

/-- One row of the `file_mapping_index` configuration sheet. -/
structure MappingIndexEntry where
  company : String
  file_name_pattern : String
  mapping_sheet_name : String
  description : String
  category : String
deriving DecidableEq

/-- `FileProcessor.get_mapping_sheet_by_company`: sheet name of the first
index entry whose company and category both match exactly. -/
def get_mapping_sheet_by_company :
    List MappingIndexEntry → String → String → Option String
  | [], _, _ => Option.none
  | m :: rest, company, category =>
    if m.company == company && m.category == category then some m.mapping_sheet_name
    else get_mapping_sheet_by_company rest company category

/-- One column-mapping rule (defaults already applied at load time). -/
structure ColumnMapping where
  input_column_name : String
  output_column_name : String
  transformation_rule : String
  notes : String
deriving DecidableEq

/-- One raw row of a mapping sheet (first four cells; `none`/empty are
falsy). -/
structure MappingRow where
  c0 : Option String
  c1 : Option String
  c2 : Option String
  c3 : Option String
deriving DecidableEq

/-- Truthiness of an optional configuration cell. -/
def strTruthy : Option String → Bool
  | Option.none => false
  | some s => s != ""

/-- `FileProcessor.load_column_mappings`: empty when the sheet is absent;
otherwise keep rows with a truthy input or output name and apply the
defaults (`N/A` input sentinel, empty output, `none` rule). -/
def load_column_mappings (wb : List (String × List MappingRow)) (name : String) :
    List ColumnMapping :=
  match (wb.find? (fun p => p.1 == name)).map (fun p => p.2) with
  | Option.none => []
  | some rows =>
    rows.filterMap (fun r =>
      if strTruthy r.c0 || strTruthy r.c1 then
        some
          { input_column_name := if strTruthy r.c0 then r.c0.getD ("") else "N/A",
            output_column_name := if strTruthy r.c1 then r.c1.getD ("") else "",
            transformation_rule := if strTruthy r.c2 then r.c2.getD ("") else "none",
            notes := r.c3.getD ("") }
      else Option.none)

/-- Projection of one extracted row (`map_data_to_output`'s inner loop):
initialise every template column to the empty string, then apply each
mapping in order; the `Ad Zone Id` target is assigned unconditionally,
other targets only when already present in the output row. -/
def map_row (template : List String) (mappings : List ColumnMapping)
    (ad_zone_id : String) (input_row : List (String × Value)) : List (String × Value) :=
  let init := template.foldl (fun d h => dictSet d h (Value.str (""))) []
  mappings.foldl (fun out m =>
    if m.output_column_name == "Ad Zone Id" then
      dictSet out m.output_column_name (Value.str ad_zone_id)
    else if m.input_column_name != "N/A" && dictContains input_row m.input_column_name then
      let tv := apply_transformation (dictGet input_row m.input_column_name)
        m.transformation_rule
      if dictContains out m.output_column_name then dictSet out m.output_column_name tv
      else out
    else out) init

/-- `FileProcessor.map_data_to_output` (the template list standing for
`self.output_template`). -/
def map_data_to_output (template : List String) (input_data : List (List (String × Value)))
    (mappings : List ColumnMapping) (ad_zone_id : String) : List (List (String × Value)) :=
  input_data.foldl (fun acc row => acc ++ [map_row template mappings ad_zone_id row]) []

/-! ### The `process_file` request core -/

/-- An `HTTPException(status_code, detail)`. -/
structure HTTPError where
  status : Nat
  detail : String
deriving DecidableEq

/-- The data-bearing part of a `ProcessingResult` (the two rendered
summaries are presentation strings, outside the verified core). -/
structure ProcessResultCore where
  standardized_data : List (List (String × Value))
  output_headers : List String
  company : String
  deal_summary : Option DealHeader
deriving DecidableEq

/-- The pure core of the `/api/process-file` handler, after the mapping
rules, the template and the uploaded workbook have been parsed: resolve
the company's mapping sheet (failing with a 400 configuration error when
falsy), load the mappings, extract the deal header and zone string, run
the Cosentino extraction (a `ValueError` surfaces as a 400), and project
the data rows. -/
def process_file (idx : List MappingIndexEntry) (wb : List (String × List MappingRow))
    (template : List String) (sheet : Sheet) (company deal_name : String) :
    Except HTTPError ProcessResultCore :=
  match get_mapping_sheet_by_company idx company ("Deal Submissions") with
  | Option.none =>
    Except.error ⟨400, "No mapping configuration found for company '" ++ company ++
      "' in Deal Submissions category. Please check your mapping rules."⟩
  | some sheetName =>
    if sheetName == "" then
      Except.error ⟨400, "No mapping configuration found for company '" ++ company ++
        "' in Deal Submissions category. Please check your mapping rules."⟩
    else
      let mappings := load_column_mappings wb sheetName
      let dealSummary := extract_deal_header sheet deal_name
      let adZoneId := extract_ad_zone_id sheet
      if containsSub ("cosentino") (pyLower sheetName) then
        match extract_cosentino_data sheet with
        | Except.error e => Except.error ⟨400, e⟩
        | Except.ok ex =>
          Except.ok
            { standardized_data := map_data_to_output template ex.data_rows mappings adZoneId,
              output_headers := template,
              company := company,
              deal_summary := dealSummary }
      else Except.error ⟨400, "Only Cosentino TPR files are currently supported"⟩

instance {e a : Type} [DecidableEq e] [DecidableEq a] : DecidableEq (Except e a) := fun x y =>
  match x, y with
  | Except.error u, Except.error v =>
    if h : u = v then isTrue (by rw [h]) else isFalse (by intro hc; cases hc; exact h rfl)
  | Except.error _, Except.ok _ => isFalse (by intro hc; cases hc)
  | Except.ok _, Except.error _ => isFalse (by intro hc; cases hc)
  | Except.ok u, Except.ok v =>
    if h : u = v then isTrue (by rw [h]) else isFalse (by intro hc; cases hc; exact h rfl)

/-- The surviving header/value pairs of one data row (the pairs the
extraction loop stores): one pair per column with a valid non-empty
header whose cell survives the null/error/formula filter. -/
def survivingPairs (s : Sheet) (headers : List (Option String)) (r : Nat) :
    List (String × Value) :=
  (List.range' 1 s.maxCol).filterMap (fun c =>
    match headers.get? (c - 1) with
    | some (some h) =>
      if h != "" then
        if survives (s.get r c) then some (h, s.get r c) else Option.none
      else Option.none
    | _ => Option.none)

/-- De-duplication keeping the first occurrence of each element, in
first-occurrence order (the behaviour of the zone scan's `not in` /
`append` accumulator). -/
def dedupFirst : List String → List String
  | [] => []
  | x :: xs => x :: (dedupFirst xs).filter (fun y => y != x)

/-! ### Concrete example worksheets and configurations -/

/-- A worksheet with the `AWG Item Code` header at row 5, three data rows
below it, and a `Manufacturer` stop marker in column B of row 9. -/
def wsRegion : Sheet :=
  { maxRow := 9, maxCol := 3,
    cell := fun r c =>
      if r = 5 ∧ c = 1 then Value.str ("AWG Item Code")
      else if r = 5 ∧ c = 2 then Value.str (" Qty  Ordered ")
      else if r = 6 ∧ c = 1 then Value.str ("A1")
      else if r = 6 ∧ c = 2 then Value.int 1
      else if r = 7 ∧ c = 1 then Value.str ("A2")
      else if r = 7 ∧ c = 2 then Value.int 2
      else if r = 8 ∧ c = 1 then Value.str ("A3")
      else if r = 8 ∧ c = 2 then Value.int 3
      else if r = 9 ∧ c = 2 then Value.str ("Manufacturer")
      else Value.none }

/-- The extraction result of `wsRegion`. -/
def wsRegionExtract : CosExtract :=
  { valid_headers := ["AWG Item Code", "Qty Ordered"],
    data_rows :=
      [[("AWG Item Code", Value.str ("A1")), ("Qty Ordered", Value.int 1)],
       [("AWG Item Code", Value.str ("A2")), ("Qty Ordered", Value.int 2)],
       [("AWG Item Code", Value.str ("A3")), ("Qty Ordered", Value.int 3)]],
    header_row_idx := 5,
    stop_row_idx := some 9 }

/-- A worksheet with no cell containing the `AWG Item Code` marker. -/
def wsNoHeader : Sheet :=
  { maxRow := 2, maxCol := 2, cell := fun _ _ => Value.none }

/-- A worksheet with a zone label in column 1 and an `X` marker 15
columns to its right (offset 15, the first offset the probe does not
reach). -/
def wsZoneFar : Sheet :=
  { maxRow := 1, maxCol := 16,
    cell := fun r c =>
      if r = 1 ∧ c = 1 then Value.str ("TPR All Stores")
      else if r = 1 ∧ c = 16 then Value.str ("X")
      else Value.none }

/-- A worksheet with two zone labels marked `X`/`x` within probe reach,
top-to-bottom. -/
def wsZonePair : Sheet :=
  { maxRow := 2, maxCol := 16,
    cell := fun r c =>
      if r = 1 ∧ c = 1 then Value.str ("TPR All Stores")
      else if r = 1 ∧ c = 3 then Value.str ("X")
      else if r = 2 ∧ c = 1 then Value.str ("TPR Price Chopper")
      else if r = 2 ∧ c = 2 then Value.str ("x")
      else Value.none }

/-- A worksheet with two qualifying `Manufacturer` labels (rows 1 and 3)
and one date label whose probed cell is the serial number 1. -/
def wsDeal : Sheet :=
  { maxRow := 3, maxCol := 5,
    cell := fun r c =>
      if r = 1 ∧ c = 1 then Value.str ("Manufacturer")
      else if r = 1 ∧ c = 3 then Value.str ("Acme Foods")
      else if r = 2 ∧ c = 1 then Value.str ("Deal Start Date:")
      else if r = 2 ∧ c = 2 then Value.int 1
      else if r = 3 ∧ c = 1 then Value.str ("Manufacturer")
      else if r = 3 ∧ c = 3 then Value.str ("Beta Foods")
      else Value.none }

/-- The deal header extracted from `wsDeal` under deal name `D`: the
second manufacturer match overwrites the first. -/
def wsDealHeader : DealHeader :=
  { deal_name := "D", vendor_id := "Beta Foods", deal_start_date := "12/31/99",
    deal_end_date := "", deal_cost_date := "" }

/-- A one-column output template without an `Ad Zone Id` column. -/
def tmplA : List String := ["A"]

/-- A mapping targeting `Ad Zone Id`, with no input column. -/
def adZoneMapping : ColumnMapping :=
  { input_column_name := "N/A", output_column_name := "Ad Zone Id",
    transformation_rule := "none", notes := "" }

/-- A mapping index with no `Deal Submissions` entry for company
`Acme`. -/
def idxNoAcme : List MappingIndexEntry :=
  [{ company := "Acme", file_name_pattern := "", mapping_sheet_name := "cosentino_tpr",
     description := "", category := "Other" }]

/-! ### Helper lemmas -/

theorem foldl_proj_getLastD {α σ τ : Type} (step : σ → α → σ) (sel : α → Option τ)
    (proj : σ → τ) (hstep : ∀ st a, proj (step st a) = (sel a).getD (proj st)) :
    ∀ (l : List α) (init : σ), proj (l.foldl step init) = (l.filterMap sel).getLastD (proj init)
  | [], init => by simp
  | a :: l, init => by
    simp only [List.foldl_cons, List.filterMap_cons]
    cases h : sel a with
    | none =>
      rw [foldl_proj_getLastD step sel proj hstep l (step init a), hstep, h]
      rfl
    | some v =>
      rw [foldl_proj_getLastD step sel proj hstep l (step init a), hstep, h,
        List.getLastD_cons]
      rfl

theorem foldl_proj_const {α σ τ : Type} (step : σ → α → σ)
    (proj : σ → τ) (hstep : ∀ st a, proj (step st a) = proj st) :
    ∀ (l : List α) (init : σ), proj (l.foldl step init) = proj init
  | [], _ => rfl
  | a :: l, init => by
    rw [List.foldl_cons, foldl_proj_const step proj hstep l (step init a), hstep]

theorem dealStep_vendor (s : Sheet) (h : DealHeader) (rc : Nat × Nat) :
    (dealStep s h rc).vendor_id = (qualifyVendor s rc).getD h.vendor_id := by
  unfold dealStep qualifyVendor
  cases hv : s.get rc.1 rc.2
  case str sv =>
    cases h1 : (sv != "") with
    | false => simp [h1]
    | true =>
      simp only [h1, Bool.true_and]
      cases h2 : (pyStrip (pyLower sv) == "manufacturer") with
      | true =>
        simp only [h2, if_true]
        cases probeVendor s rc.1 rc.2 <;> simp
      | false =>
        simp only [h2, Bool.false_eq_true, if_false]
        cases h3 : containsSub ("deal start date") (pyStrip (pyLower sv)) with
        | true =>
          simp only [h3, if_true]
          cases probeDate s rc.1 rc.2 <;> simp
        | false =>
          simp only [h3, Bool.false_eq_true, if_false]
          cases h4 : containsSub ("deal end date") (pyStrip (pyLower sv)) with
          | true =>
            simp only [h4, if_true]
            cases probeDate s rc.1 rc.2 <;> simp
          | false =>
            simp only [h4, Bool.false_eq_true, if_false]
            cases h5 : containsSub ("deal cost date") (pyStrip (pyLower sv)) with
            | true =>
              simp only [h5, if_true]
              cases probeDate s rc.1 rc.2 <;> simp
            | false => simp [h5]
  all_goals rfl

theorem dealStep_start (s : Sheet) (h : DealHeader) (rc : Nat × Nat) :
    (dealStep s h rc).deal_start_date = (qualifyStart s rc).getD h.deal_start_date := by
  unfold dealStep qualifyStart
  cases hv : s.get rc.1 rc.2
  case str sv =>
    cases h1 : (sv != "") with
    | false => simp [h1]
    | true =>
      simp only [h1, Bool.true_and]
      cases h2 : (pyStrip (pyLower sv) == "manufacturer") with
      | true =>
        simp only [h2, if_true, Bool.not_true, Bool.false_and]
        cases probeVendor s rc.1 rc.2 <;> simp
      | false =>
        simp only [h2, Bool.false_eq_true, if_false, Bool.not_false, Bool.true_and]
        cases h3 : containsSub ("deal start date") (pyStrip (pyLower sv)) with
        | true =>
          simp only [h3, if_true]
          cases probeDate s rc.1 rc.2 <;> simp
        | false =>
          simp only [h3, Bool.false_eq_true, if_false]
          cases h4 : containsSub ("deal end date") (pyStrip (pyLower sv)) with
          | true =>
            simp only [h4, if_true]
            cases probeDate s rc.1 rc.2 <;> simp
          | false =>
            simp only [h4, Bool.false_eq_true, if_false]
            cases h5 : containsSub ("deal cost date") (pyStrip (pyLower sv)) with
            | true =>
              simp only [h5, if_true]
              cases probeDate s rc.1 rc.2 <;> simp
            | false => simp [h5]
  all_goals rfl

theorem dealStep_end (s : Sheet) (h : DealHeader) (rc : Nat × Nat) :
    (dealStep s h rc).deal_end_date = (qualifyEnd s rc).getD h.deal_end_date := by
  unfold dealStep qualifyEnd
  cases hv : s.get rc.1 rc.2
  case str sv =>
    cases h1 : (sv != "") with
    | false => simp [h1]
    | true =>
      simp only [h1, Bool.true_and]
      cases h2 : (pyStrip (pyLower sv) == "manufacturer") with
      | true =>
        simp only [h2, if_true, Bool.not_true, Bool.false_and]
        cases probeVendor s rc.1 rc.2 <;> simp
      | false =>
        simp only [h2, Bool.false_eq_true, if_false, Bool.not_false, Bool.true_and]
        cases h3 : containsSub ("deal start date") (pyStrip (pyLower sv)) with
        | true =>
          simp only [h3, if_true, Bool.not_true, Bool.false_and]
          cases probeDate s rc.1 rc.2 <;> simp
        | false =>
          simp only [h3, Bool.false_eq_true, if_false, Bool.not_false, Bool.true_and]
          cases h4 : containsSub ("deal end date") (pyStrip (pyLower sv)) with
          | true =>
            simp only [h4, if_true]
            cases probeDate s rc.1 rc.2 <;> simp
          | false =>
            simp only [h4, Bool.false_eq_true, if_false]
            cases h5 : containsSub ("deal cost date") (pyStrip (pyLower sv)) with
            | true =>
              simp only [h5, if_true]
              cases probeDate s rc.1 rc.2 <;> simp
            | false => simp [h5]
  all_goals rfl

theorem dealStep_cost (s : Sheet) (h : DealHeader) (rc : Nat × Nat) :
    (dealStep s h rc).deal_cost_date = (qualifyCost s rc).getD h.deal_cost_date := by
  unfold dealStep qualifyCost
  cases hv : s.get rc.1 rc.2
  case str sv =>
    cases h1 : (sv != "") with
    | false => simp [h1]
    | true =>
      simp only [h1, Bool.true_and]
      cases h2 : (pyStrip (pyLower sv) == "manufacturer") with
      | true =>
        simp only [h2, if_true, Bool.not_true, Bool.false_and]
        cases probeVendor s rc.1 rc.2 <;> simp
      | false =>
        simp only [h2, Bool.false_eq_true, if_false, Bool.not_false, Bool.true_and]
        cases h3 : containsSub ("deal start date") (pyStrip (pyLower sv)) with
        | true =>
          simp only [h3, if_true, Bool.not_true, Bool.false_and]
          cases probeDate s rc.1 rc.2 <;> simp
        | false =>
          simp only [h3, Bool.false_eq_true, if_false, Bool.not_false, Bool.true_and]
          cases h4 : containsSub ("deal end date") (pyStrip (pyLower sv)) with
          | true =>
            simp only [h4, if_true, Bool.not_true, Bool.false_and]
            cases probeDate s rc.1 rc.2 <;> simp
          | false =>
            simp only [h4, Bool.false_eq_true, if_false, Bool.not_false, Bool.true_and]
            cases h5 : containsSub ("deal cost date") (pyStrip (pyLower sv)) with
            | true =>
              simp only [h5, if_true]
              cases probeDate s rc.1 rc.2 <;> simp
            | false => simp [h5]
  all_goals rfl

theorem dealStep_name (s : Sheet) (h : DealHeader) (rc : Nat × Nat) :
    (dealStep s h rc).deal_name = h.deal_name := by
  unfold dealStep
  cases hv : s.get rc.1 rc.2
  case str sv =>
    cases h1 : (sv != "") with
    | false => simp [h1]
    | true =>
      simp only [h1]
      cases h2 : (pyStrip (pyLower sv) == "manufacturer") with
      | true =>
        simp only [h2, if_true]
        cases probeVendor s rc.1 rc.2 <;> simp
      | false =>
        simp only [h2, Bool.false_eq_true, if_false]
        cases h3 : containsSub ("deal start date") (pyStrip (pyLower sv)) with
        | true =>
          simp only [h3, if_true]
          cases probeDate s rc.1 rc.2 <;> simp
        | false =>
          simp only [h3, Bool.false_eq_true, if_false]
          cases h4 : containsSub ("deal end date") (pyStrip (pyLower sv)) with
          | true =>
            simp only [h4, if_true]
            cases probeDate s rc.1 rc.2 <;> simp
          | false =>
            simp only [h4, Bool.false_eq_true, if_false]
            cases h5 : containsSub ("deal cost date") (pyStrip (pyLower sv)) with
            | true =>
              simp only [h5, if_true]
              cases probeDate s rc.1 rc.2 <;> simp
            | false => simp [h5]
  all_goals rfl

theorem range'_find?_eq_some (p : Nat → Bool) :
    ∀ (n a r : Nat), (List.range' a n).find? p = some r ↔
      (a ≤ r ∧ r < a + n ∧ p r = true ∧ ∀ j, a ≤ j → j < r → p j = false)
  | 0, a, r => by
    refine iff_of_false (by simp [List.range']) ?_
    rintro ⟨h1, h2, -, -⟩
    omega
  | n + 1, a, r => by
    rw [List.range'_succ, List.find?_cons]
    cases hp : p a with
    | true =>
      constructor
      · intro h
        cases h
        exact ⟨Nat.le_refl _, by omega, hp, fun j hj1 hj2 => by omega⟩
      · rintro ⟨h1, h2, h3, h4⟩
        rcases Nat.eq_or_lt_of_le h1 with heq | hlt
        · rw [heq]
        · rw [h4 a (Nat.le_refl _) hlt] at hp
          cases hp
    | false =>
      rw [range'_find?_eq_some p n (a + 1) r]
      constructor
      · rintro ⟨h1, h2, h3, h4⟩
        refine ⟨by omega, by omega, h3, fun j hj1 hj2 => ?_⟩
        rcases Nat.eq_or_lt_of_le hj1 with heq | hlt
        · exact heq ▸ hp
        · exact h4 j hlt hj2
      · rintro ⟨h1, h2, h3, h4⟩
        have hne : r ≠ a := by
          intro heq
          rw [heq] at h3
          rw [h3] at hp
          cases hp
        exact ⟨by omega, by omega, h3, fun j hj1 hj2 => h4 j (by omega) hj2⟩

theorem range'_find?_eq_none (p : Nat → Bool) (a n : Nat) :
    (List.range' a n).find? p = Option.none ↔ ∀ j, a ≤ j → j < a + n → p j = false := by
  rw [List.find?_eq_none]
  constructor
  · intro h j hj1 hj2
    have := h j (by rw [List.mem_range'_1]; omega)
    simpa using this
  · intro h x hx
    rw [List.mem_range'_1] at hx
    simp [h x hx.1 (by omega)]

theorem foldl_ite_append_eq_filter_map {α β : Type} (f : α → β) (p : α → Bool) :
    ∀ (l : List α) (init : List β),
      l.foldl (fun acc a => if p a then acc ++ [f a] else acc) init =
        init ++ (l.filter p).map f
  | [], init => by simp
  | a :: l, init => by
    simp only [List.foldl_cons, List.filter_cons]
    cases hp : p a with
    | true =>
      simp only [eq_self_iff_true, if_true]
      rw [foldl_ite_append_eq_filter_map f p l (init ++ [f a])]
      simp
    | false =>
      simp only [Bool.false_eq_true, if_false]
      rw [foldl_ite_append_eq_filter_map f p l init]

theorem foldl_step_eq_filterMap_foldl {α β γ : Type} (step : γ → α → γ) (sel : α → Option β)
    (g : γ → β → γ)
    (hstep : ∀ d a, step d a = match sel a with
      | some b => g d b
      | Option.none => d) :
    ∀ (l : List α) (init : γ), l.foldl step init = (l.filterMap sel).foldl g init
  | [], _ => rfl
  | a :: l, init => by
    rw [List.foldl_cons, List.filterMap_cons, hstep]
    cases sel a with
    | none => exact foldl_step_eq_filterMap_foldl step sel g hstep l init
    | some b =>
      rw [List.foldl_cons]
      exact foldl_step_eq_filterMap_foldl step sel g hstep l (g init b)

theorem resolve_some_iff :
    ∀ (idx : List MappingIndexEntry) (c k sh : String),
      get_mapping_sheet_by_company idx c k = some sh ↔
        ∃ pre m post, idx = pre ++ m :: post ∧
          (∀ mm ∈ pre, ¬(mm.company = c ∧ mm.category = k)) ∧
          m.company = c ∧ m.category = k ∧ sh = m.mapping_sheet_name
  | [], c, k, sh => by
    constructor
    · intro h
      exact absurd h (by simp [get_mapping_sheet_by_company])
    · rintro ⟨pre, m, post, hsplit, -⟩
      exact absurd hsplit (by cases pre <;> simp)
  | m0 :: rest, c, k, sh => by
    unfold get_mapping_sheet_by_company
    cases hm : (m0.company == c && m0.category == k) with
    | true =>
      rw [Bool.and_eq_true, beq_iff_eq, beq_iff_eq] at hm
      simp only [if_true]
      constructor
      · intro h
        cases h
        exact ⟨[], m0, rest, rfl, by simp, hm.1, hm.2, rfl⟩
      · rintro ⟨pre, m, post, hsplit, hpre, hc, hk, hsh⟩
        cases pre with
        | nil =>
          simp only [List.nil_append, List.cons.injEq] at hsplit
          rw [hsh, hsplit.1]
        | cons q pre2 =>
          simp only [List.cons_append, List.cons.injEq] at hsplit
          exact absurd ⟨hsplit.1 ▸ hm.1, hsplit.1 ▸ hm.2⟩ (hpre q (by simp))
    | false =>
      have hnm : ¬(m0.company = c ∧ m0.category = k) := by
        rintro ⟨h1, h2⟩
        rw [h1, h2] at hm
        simp at hm
      simp only [Bool.false_eq_true, if_false]
      rw [resolve_some_iff rest c k sh]
      constructor
      · rintro ⟨pre, m, post, hsplit, hpre, hc, hk, hsh⟩
        refine ⟨m0 :: pre, m, post, by rw [hsplit, List.cons_append], ?_, hc, hk, hsh⟩
        intro mm hmm
        rcases List.mem_cons.mp hmm with heq | hmem
        · rw [heq]; exact hnm
        · exact hpre mm hmem
      · rintro ⟨pre, m, post, hsplit, hpre, hc, hk, hsh⟩
        cases pre with
        | nil =>
          simp only [List.nil_append, List.cons.injEq] at hsplit
          rw [← hsplit.1] at hc hk
          exact absurd ⟨hc, hk⟩ hnm
        | cons q pre2 =>
          simp only [List.cons_append, List.cons.injEq] at hsplit
          exact ⟨pre2, m, post, hsplit.2, fun mm hmm => hpre mm (by simp [hmm]), hc, hk, hsh⟩

theorem resolve_none_iff :
    ∀ (idx : List MappingIndexEntry) (c k : String),
      get_mapping_sheet_by_company idx c k = Option.none ↔
        ∀ m ∈ idx, ¬(m.company = c ∧ m.category = k)
  | [], c, k => by simp [get_mapping_sheet_by_company]
  | m0 :: rest, c, k => by
    unfold get_mapping_sheet_by_company
    cases hm : (m0.company == c && m0.category == k) with
    | true =>
      rw [Bool.and_eq_true, beq_iff_eq, beq_iff_eq] at hm
      simp only [if_true]
      refine iff_of_false (by simp) ?_
      intro hall
      exact hall m0 (by simp) hm
    | false =>
      have hnm : ¬(m0.company = c ∧ m0.category = k) := by
        rintro ⟨h1, h2⟩
        rw [h1, h2] at hm
        simp at hm
      simp only [Bool.false_eq_true, if_false]
      rw [resolve_none_iff rest c k]
      constructor
      · intro h mm hmm
        rcases List.mem_cons.mp hmm with heq | hmem
        · rw [heq]; exact hnm
        · exact h mm hmem
      · intro h mm hmm
        exact h mm (by simp [hmm])

/-! ### Claim theorems -/

/-- C2: in the full-sheet deal-header scan, each of the four extracted
fields (vendor id and the three dates) equals the value produced by the
last qualifying match of its label in row-major (top-to-bottom,
left-to-right) cell order — every subsequent qualifying match overwrites
the field — and defaults to the empty string when no match qualifies. -/
theorem c2_last_match_wins (s : Sheet) (dn : String) :
    extract_deal_header s dn =
      some { deal_name := dn,
             vendor_id := ((cellsOf s).filterMap (qualifyVendor s)).getLastD (""),
             deal_start_date := ((cellsOf s).filterMap (qualifyStart s)).getLastD (""),
             deal_end_date := ((cellsOf s).filterMap (qualifyEnd s)).getLastD (""),
             deal_cost_date := ((cellsOf s).filterMap (qualifyCost s)).getLastD ("") } := by
  unfold extract_deal_header
  refine congrArg some ?_
  have hn := foldl_proj_const (dealStep s) DealHeader.deal_name
    (fun st a => dealStep_name s st a) (cellsOf s) ⟨dn, "", "", "", ""⟩
  have hv := foldl_proj_getLastD (dealStep s) (qualifyVendor s) DealHeader.vendor_id
    (fun st a => dealStep_vendor s st a) (cellsOf s) ⟨dn, "", "", "", ""⟩
  have hs := foldl_proj_getLastD (dealStep s) (qualifyStart s) DealHeader.deal_start_date
    (fun st a => dealStep_start s st a) (cellsOf s) ⟨dn, "", "", "", ""⟩
  have he := foldl_proj_getLastD (dealStep s) (qualifyEnd s) DealHeader.deal_end_date
    (fun st a => dealStep_end s st a) (cellsOf s) ⟨dn, "", "", "", ""⟩
  have hc := foldl_proj_getLastD (dealStep s) (qualifyCost s) DealHeader.deal_cost_date
    (fun st a => dealStep_cost s st a) (cellsOf s) ⟨dn, "", "", "", ""⟩
  have heta : (cellsOf s).foldl (dealStep s) ⟨dn, "", "", "", ""⟩ =
      (⟨((cellsOf s).foldl (dealStep s) ⟨dn, "", "", "", ""⟩).deal_name,
        ((cellsOf s).foldl (dealStep s) ⟨dn, "", "", "", ""⟩).vendor_id,
        ((cellsOf s).foldl (dealStep s) ⟨dn, "", "", "", ""⟩).deal_start_date,
        ((cellsOf s).foldl (dealStep s) ⟨dn, "", "", "", ""⟩).deal_end_date,
        ((cellsOf s).foldl (dealStep s) ⟨dn, "", "", "", ""⟩).deal_cost_date⟩ : DealHeader) := rfl
  rw [heta, hn, hv, hs, he, hc]

/-- C10: on the falsy numeric input `0`, `to_number:float` and
`to_number:int` return `None` (the falsy-input guard fires before any
parsing), while `to_number:currency` has no falsy-input guard and parses
`str(0)` to the float `0.0`. -/
theorem c10_falsy_zero_asymmetry :
    apply_transformation (Value.int 0) ("to_number:float") = Value.none ∧
    apply_transformation (Value.int 0) ("to_number:int") = Value.none ∧
    apply_transformation (Value.int 0) ("to_number:currency") = Value.float 0 0 := by
  decide

/-- C7: a truthy numeric date-field candidate whose serial stays inside
`datetime`'s supported range is interpreted as a day count anchored at the
epoch 1899-12-30 and formatted as `MM/DD/YY`. -/
theorem c7_date_serial (n : Int) (h0 : n ≠ 0)
    (hlo : daysFromCivil 1 1 1 ≤ excelEpoch + n)
    (hhi : excelEpoch + n ≤ daysFromCivil 9999 12 31) :
    dateCandidate (Value.int n) = some (serialFormat (excelEpoch + n)) := by
  unfold dateCandidate serialToDateString
  have ht : pyTruthy (Value.int n) = true := by
    simp [pyTruthy, h0]
  rw [ht]
  simp only [if_true]
  rw [if_pos ⟨hlo, hhi⟩]

/-- C7 witness: serial `1` formats to `12/31/99`. -/
theorem c7_date_serial_witness :
    dateCandidate (Value.int 1) = some ("12/31/99") := by
  have h := c7_date_serial 1 (by decide) (by decide) (by decide)
  rw [h]
  decide

/-- C6 counterexample: a worksheet whose only zone label has its marker
exactly 15 columns to the right.  The probe (`range(1, 15)`, offsets
1..14) never reaches it, so the result is empty, refuting the claim that
a marker within 15 columns suffices. -/
theorem c6_zone_counterexample :
    extract_ad_zone_id wsZoneFar = "" ∧
    cellLabel (wsZoneFar.get 1 1) = some ("TPR All Stores") ∧
    pyTruthy (wsZoneFar.get 1 (1 + 15)) = true ∧
    markerSet.contains (pyUpper (pyStrip (pyStr (wsZoneFar.get 1 (1 + 15))))) = true := by
  decide

/-- C1 counterexample: with a one-column schema `["A"]` and a mapping
targeting `Ad Zone Id`, the projected row acquires the key `Ad Zone Id`
even though it is not a schema column — the zone assignment is not
guarded by schema membership. -/
theorem c1_keyset_counterexample :
    map_data_to_output tmplA [[]] [adZoneMapping] ("Z") =
      [[("A", Value.str ("")), ("Ad Zone Id", Value.str ("Z"))]] ∧
    ¬ ("Ad Zone Id" ∈ tmplA) := by
  decide

/-- C3: the stop-row search returns the first row at index ≥ `start`
whose column-B test succeeds (and `none` exactly when no row in
`[start, maxRow]` passes); the extraction's data rows are drawn from the
half-open interval `[header_row+1, stop_row)`, reading to the end of the
sheet (`maxRow + 1` bound) when no stop row exists; and the concrete
sheet with header at row 5 and a `Manufacturer` column-B marker at row 9
extracts exactly rows 6–8 with `header_row_idx = 5`,
`stop_row_idx = 9`. -/
theorem c3_region_bounds :
    (∀ (s : Sheet) (start st : Nat),
      (find_manufacturer_stop_row s start = some st ↔
        start ≤ st ∧ st ≤ s.maxRow ∧ isStopRow s st = true ∧
          ∀ r, start ≤ r → r < st → isStopRow s r = false) ∧
      (find_manufacturer_stop_row s start = Option.none ↔
        ∀ r, start ≤ r → r ≤ s.maxRow → isStopRow s r = false)) ∧
    (∀ (s : Sheet) (e : CosExtract), extract_cosentino_data s = Except.ok e →
      e.stop_row_idx = find_manufacturer_stop_row s (e.header_row_idx + 1) ∧
      e.data_rows = ((regionRows s e.header_row_idx).filter
        (fun r => rowIncluded (rowRecord s (headersOf s e.header_row_idx) r))).map
        (rowRecord s (headersOf s e.header_row_idx)) ∧
      regionRows s e.header_row_idx =
        List.range' (e.header_row_idx + 1)
          ((match e.stop_row_idx with
            | some st => st
            | Option.none => s.maxRow + 1) - (e.header_row_idx + 1))) ∧
    extract_cosentino_data wsRegion = Except.ok wsRegionExtract := by
  refine ⟨?_, ?_, by decide⟩
  · intro s start st
    constructor
    · unfold find_manufacturer_stop_row
      rw [range'_find?_eq_some]
      constructor
      · rintro ⟨h1, h2, h3, h4⟩
        exact ⟨h1, by omega, h3, h4⟩
      · rintro ⟨h1, h2, h3, h4⟩
        exact ⟨h1, by omega, h3, h4⟩
    · unfold find_manufacturer_stop_row
      rw [range'_find?_eq_none]
      constructor
      · intro h j hj1 hj2
        exact h j hj1 (by omega)
      · intro h j hj1 hj2
        exact h j hj1 (by omega)
  · intro s e h
    unfold extract_cosentino_data at h
    cases hfa : find_awg_header_row s with
    | none =>
      rw [hfa] at h
      cases h
    | some hr =>
      rw [hfa] at h
      simp only [Except.ok.injEq] at h
      subst h
      refine ⟨rfl, ?_, rfl⟩
      have := foldl_ite_append_eq_filter_map (rowRecord s (headersOf s hr))
        (fun r => rowIncluded (rowRecord s (headersOf s hr) r)) (regionRows s hr) []
      simpa using this

/-- C3 witness: on the concrete sheet, row 9 is the first stop row after
the header, and the extracted data rows are the included records of the
region rows. -/
theorem c3_region_bounds_witness :
    (6 ≤ 9 ∧ 9 ≤ wsRegion.maxRow ∧ isStopRow wsRegion 9 = true ∧
      ∀ r, 6 ≤ r → r < 9 → isStopRow wsRegion r = false) ∧
    wsRegionExtract.stop_row_idx =
      find_manufacturer_stop_row wsRegion (wsRegionExtract.header_row_idx + 1) :=
  ⟨(c3_region_bounds.1 wsRegion 6 9).1.mp (by decide),
   (c3_region_bounds.2.1 wsRegion wsRegionExtract (by decide)).1⟩

/-- C4: a cell survives iff it is non-null and its string form starts
with neither `#` nor `=`; the row record is the dictionary built from
exactly the surviving header/value pairs; a row is included iff some
surviving value is truthy; and the extracted data rows are the included
row records of the region rows in worksheet order. -/
theorem c4_cell_row_filtering :
    (∀ v : Value, survives v = false ↔
      (v = Value.none ∨ pyStartsWith (pyStr v) ("#") = true ∨
        pyStartsWith (pyStr v) ("=") = true)) ∧
    (∀ (s : Sheet) (headers : List (Option String)) (r : Nat),
      rowRecord s headers r =
        (survivingPairs s headers r).foldl (fun d p => dictSet d p.1 p.2) []) ∧
    (∀ d : List (String × Value), rowIncluded d = true ↔ ∃ p ∈ d, pyTruthy p.2 = true) ∧
    (∀ (s : Sheet) (e : CosExtract), extract_cosentino_data s = Except.ok e →
      e.data_rows = ((regionRows s e.header_row_idx).filter
        (fun r => rowIncluded (rowRecord s (headersOf s e.header_row_idx) r))).map
        (rowRecord s (headersOf s e.header_row_idx))) := by
  refine ⟨?_, ?_, ?_, ?_⟩
  · intro v
    unfold survives
    cases hv : (v == Value.none) with
    | true =>
      rw [beq_iff_eq] at hv
      simp [hv, pyStr, pyStartsWith, isPrefixL]
    | false =>
      have hne : ¬ v = Value.none := by
        intro hc
        rw [hc] at hv
        simp at hv
      simp only [bne, hv, Bool.not_false, Bool.true_and]
      constructor
      · intro h
        rcases Bool.and_eq_false_iff.mp h with h1 | h1
        · exact Or.inr (Or.inl (by revert h1; cases pyStartsWith (pyStr v) ("#") <;> simp))
        · exact Or.inr (Or.inr (by revert h1; cases pyStartsWith (pyStr v) ("=") <;> simp))
      · rintro (hc | hc | hc)
        · exact absurd hc hne
        · simp [hc]
        · simp [hc]
  · intro s headers r
    refine foldl_step_eq_filterMap_foldl _ _ _ ?_ (List.range' 1 s.maxCol) []
    intro d c
    cases hh : headers.get? (c - 1) with
    | none => rfl
    | some oh =>
      cases oh with
      | none => rfl
      | some h =>
        cases hne : (h != "") with
        | false => simp [hne]
        | true =>
          simp only [hne, if_true]
          cases hs : survives (s.get r c) with
          | false => simp [hs]
          | true => simp [hs]
  · intro d
    unfold rowIncluded
    rw [List.any_eq_true]
  · intro s e h
    unfold extract_cosentino_data at h
    cases hfa : find_awg_header_row s with
    | none =>
      rw [hfa] at h
      cases h
    | some hr =>
      rw [hfa] at h
      simp only [Except.ok.injEq] at h
      subst h
      have := foldl_ite_append_eq_filter_map (rowRecord s (headersOf s hr))
        (fun r => rowIncluded (rowRecord s (headersOf s hr) r)) (regionRows s hr) []
      simpa using this

/-- C4 witness: the data rows of the concrete extraction are the
included row records of its region rows. -/
theorem c4_cell_row_filtering_witness :
    wsRegionExtract.data_rows =
      ((regionRows wsRegion wsRegionExtract.header_row_idx).filter
        (fun r => rowIncluded
          (rowRecord wsRegion (headersOf wsRegion wsRegionExtract.header_row_idx) r))).map
        (rowRecord wsRegion (headersOf wsRegion wsRegionExtract.header_row_idx)) :=
  c4_cell_row_filtering.2.2.2 wsRegion wsRegionExtract (by decide)

/-- C5: on a worksheet none of whose cells passes the `AWG Item Code`
marker test, the header search returns nothing and the whole extraction
fails with the `ValueError` (no headers, no data rows — no partial
result). -/
theorem c5_missing_header_error (s : Sheet)
    (h : ∀ r c, 1 ≤ r → r ≤ s.maxRow → 1 ≤ c → c ≤ s.maxCol →
      isAwgCell (s.cell r c) = false) :
    find_awg_header_row s = Option.none ∧
    extract_cosentino_data s =
      Except.error ("Could not find 'AWG Item Code' header row") := by
  have hf : find_awg_header_row s = Option.none := by
    unfold find_awg_header_row
    rw [List.find?_eq_none]
    intro r hr
    rw [List.mem_range'_1] at hr
    intro hcon
    rw [List.any_eq_true] at hcon
    obtain ⟨c, hc, hcell⟩ := hcon
    rw [List.mem_range'_1] at hc
    unfold Sheet.get at hcell
    rw [if_pos ⟨hr.1, by omega, hc.1, by omega⟩] at hcell
    rw [h r c hr.1 (by omega) hc.1 (by omega)] at hcell
    cases hcell
  refine ⟨hf, ?_⟩
  unfold extract_cosentino_data
  rw [hf]

/-- C5 witness: the all-empty worksheet has no marker cell, and its
extraction fails with the `ValueError`. -/
theorem c5_missing_header_error_witness :
    find_awg_header_row wsNoHeader = Option.none ∧
    extract_cosentino_data wsNoHeader =
      Except.error ("Could not find 'AWG Item Code' header row") :=
  c5_missing_header_error wsNoHeader (fun _ _ _ _ _ _ => rfl)

/-- C8: the mapping-sheet resolution returns the sheet name of the first
index entry whose company and category both match exactly
(case-sensitively), `none` exactly when no entry matches both; and an
unresolved company makes `process_file` fail with the 400 configuration
error, producing no result. -/
theorem c8_first_match_resolution :
    (∀ (idx : List MappingIndexEntry) (c k sh : String),
      get_mapping_sheet_by_company idx c k = some sh ↔
        ∃ pre m post, idx = pre ++ m :: post ∧
          (∀ mm ∈ pre, ¬(mm.company = c ∧ mm.category = k)) ∧
          m.company = c ∧ m.category = k ∧ sh = m.mapping_sheet_name) ∧
    (∀ (idx : List MappingIndexEntry) (c k : String),
      get_mapping_sheet_by_company idx c k = Option.none ↔
        ∀ m ∈ idx, ¬(m.company = c ∧ m.category = k)) ∧
    (∀ (idx : List MappingIndexEntry) (wb : List (String × List MappingRow))
        (template : List String) (sheet : Sheet) (company dn : String),
      get_mapping_sheet_by_company idx company ("Deal Submissions") = Option.none →
      process_file idx wb template sheet company dn =
        Except.error ⟨400, "No mapping configuration found for company '" ++ company ++
          "' in Deal Submissions category. Please check your mapping rules."⟩) := by
  refine ⟨resolve_some_iff, resolve_none_iff, ?_⟩
  intro idx wb template sheet company dn h
  unfold process_file
  rw [h]

/-- C8 witness: company `Acme` has no `Deal Submissions` entry in the
concrete index, and the request fails with the 400 configuration
error. -/
theorem c8_first_match_resolution_witness :
    (∀ m ∈ idxNoAcme, ¬(m.company = "Acme" ∧ m.category = "Deal Submissions")) ∧
    process_file idxNoAcme [] [] wsNoHeader ("Acme") ("d") =
      Except.error ⟨400, "No mapping configuration found for company '" ++ "Acme" ++
        "' in Deal Submissions category. Please check your mapping rules."⟩ :=
  ⟨(c8_first_match_resolution.2.1 idxNoAcme ("Acme") ("Deal Submissions")).mp (by decide),
   c8_first_match_resolution.2.2 idxNoAcme [] [] wsNoHeader ("Acme") ("d") (by decide)⟩

theorem dictContains_dictSet (d : List (String × Value)) (k : String) (v : Value)
    (x : String) :
    dictContains (dictSet d k v) x = true ↔ (x = k ∨ dictContains d x = true) := by
  unfold dictSet dictContains
  cases hd : d.any (fun p => p.1 == k) with
  | true =>
    simp only [eq_self_iff_true, if_true]
    rw [List.any_map, List.any_eq_true, List.any_eq_true]
    constructor
    · rintro ⟨p, hp, hpx⟩
      simp only [Function.comp] at hpx
      by_cases hpk : (p.1 == k) = true
      · rw [if_pos hpk] at hpx
        simp only [beq_iff_eq] at hpx
        exact Or.inl hpx.symm
      · rw [if_neg hpk] at hpx
        exact Or.inr ⟨p, hp, hpx⟩
    · rintro (hx | ⟨p, hp, hpx⟩)
      · rw [List.any_eq_true] at hd
        obtain ⟨q, hq, hqk⟩ := hd
        refine ⟨q, hq, ?_⟩
        simp only [Function.comp, hqk, if_pos rfl, beq_iff_eq]
        exact hx.symm
      · refine ⟨p, hp, ?_⟩
        simp only [Function.comp]
        by_cases hpk : (p.1 == k) = true
        · rw [if_pos hpk]
          rw [beq_iff_eq] at hpx hpk ⊢
          rw [← hpk, hpx]
        · rw [if_neg hpk]
          exact hpx
  | false =>
    simp only [Bool.false_eq_true, if_false]
    rw [List.any_append, Bool.or_eq_true, List.any_eq_true]
    simp only [List.any_cons, List.any_nil, Bool.or_false, beq_iff_eq]
    constructor
    · rintro (h | h)
      · exact Or.inr h
      · exact Or.inl h.symm
    · rintro (h | h)
      · exact Or.inr h.symm
      · exact Or.inl h

theorem template_init_keys :
    ∀ (tpl : List String) (d : List (String × Value)) (x : String),
      dictContains (tpl.foldl (fun d h => dictSet d h (Value.str (""))) d) x = true ↔
        (dictContains d x = true ∨ x ∈ tpl)
  | [], d, x => by simp
  | h :: t, d, x => by
    rw [List.foldl_cons, template_init_keys t (dictSet d h (Value.str (""))) x,
      dictContains_dictSet]
    rw [List.mem_cons]
    tauto

theorem map_row_fold_keys (azid : String) (input_row : List (String × Value)) :
    ∀ (ms : List ColumnMapping) (out : List (String × Value)) (x : String),
      dictContains (ms.foldl (fun out m =>
        if m.output_column_name == "Ad Zone Id" then
          dictSet out m.output_column_name (Value.str azid)
        else if m.input_column_name != "N/A" && dictContains input_row m.input_column_name then
          let tv := apply_transformation (dictGet input_row m.input_column_name)
            m.transformation_rule
          if dictContains out m.output_column_name then dictSet out m.output_column_name tv
          else out
        else out) out) x = true ↔
      (dictContains out x = true ∨
        (x = "Ad Zone Id" ∧ ∃ m ∈ ms, m.output_column_name = "Ad Zone Id"))
  | [], out, x => by simp
  | m :: t, out, x => by
    rw [List.foldl_cons, map_row_fold_keys azid input_row t _ x]
    cases hoz : (m.output_column_name == "Ad Zone Id") with
    | true =>
      rw [beq_iff_eq] at hoz
      simp only [hoz, eq_self_iff_true, if_true]
      rw [dictContains_dictSet]
      constructor
      · rintro ((hx | hc) | ⟨hx, m2, hm2, ho2⟩)
        · exact Or.inr ⟨hx, m, by simp, hoz⟩
        · exact Or.inl hc
        · exact Or.inr ⟨hx, m2, by simp [hm2], ho2⟩
      · rintro (hc | ⟨hx, m2, hm2, ho2⟩)
        · exact Or.inl (Or.inr hc)
        · exact Or.inl (Or.inl (by rw [hx]))
    | false =>
      have hne : m.output_column_name ≠ "Ad Zone Id" := by
        intro hc
        rw [hc] at hoz
        simp at hoz
      simp only [hoz, Bool.false_eq_true, if_false]
      have hstep : ∀ x2 : String,
          dictContains (if m.input_column_name != "N/A" &&
              dictContains input_row m.input_column_name then
            if dictContains out m.output_column_name then
              dictSet out m.output_column_name
                (apply_transformation (dictGet input_row m.input_column_name)
                  m.transformation_rule)
            else out
          else out) x2 = true ↔ dictContains out x2 = true := by
        intro x2
        cases hg : (m.input_column_name != "N/A" && dictContains input_row m.input_column_name) with
        | false => simp [hg]
        | true =>
          simp only [hg, eq_self_iff_true, if_true]
          cases hco : dictContains out m.output_column_name with
          | false => simp [hco]
          | true =>
            simp only [hco, eq_self_iff_true, if_true]
            rw [dictContains_dictSet]
            constructor
            · rintro (hx | hc)
              · rw [hx]; exact hco
              · exact hc
            · exact fun hc => Or.inr hc
      rw [hstep]
      constructor
      · rintro (hc | ⟨hx, m2, hm2, ho2⟩)
        · exact Or.inl hc
        · exact Or.inr ⟨hx, m2, by simp [hm2], ho2⟩
      · rintro (hc | ⟨hx, m2, hm2, ho2⟩)
        · exact Or.inl hc
        · rcases List.mem_cons.mp hm2 with heq | hmem
          · exact absurd (heq ▸ ho2) hne
          · exact Or.inr ⟨hx, m2, hmem, ho2⟩

theorem foldl_append_map {α β : Type} (f : α → β) :
    ∀ (l : List α) (init : List β),
      l.foldl (fun acc a => acc ++ [f a]) init = init ++ l.map f
  | [], init => by simp
  | a :: l, init => by
    rw [List.foldl_cons, foldl_append_map f l (init ++ [f a])]
    simp

theorem foldl_insertAbsent :
    ∀ (l : List String) (acc : List String),
      l.foldl (fun acc x => if acc.contains x then acc else acc ++ [x]) acc =
        acc ++ (dedupFirst l).filter (fun y => !acc.contains y)
  | [], acc => by simp [dedupFirst]
  | x :: xs, acc => by
    rw [List.foldl_cons, foldl_insertAbsent xs _]
    show _ ++ _ = acc ++ (dedupFirst (x :: xs)).filter _
    rw [dedupFirst]
    cases hc : acc.contains x with
    | true =>
      simp only [hc, eq_self_iff_true, if_true, List.filter_cons, Bool.not_true,
        Bool.false_eq_true, if_false]
      rw [List.filter_filter]
      congr 1
      apply List.filter_congr
      intro y hy
      cases hyx : (y == x) with
      | true =>
        rw [beq_iff_eq] at hyx
        subst hyx
        rw [hc]
        rfl
      | false =>
        simp [bne, hyx]
    | false =>
      simp only [hc, Bool.false_eq_true, if_false, List.filter_cons, Bool.not_false,
        eq_self_iff_true, if_true]
      rw [List.filter_filter, List.append_assoc]
      congr 1
      rw [List.singleton_append]
      congr 1
      apply List.filter_congr
      intro y hy
      rw [List.contains_eq_any_beq, List.any_append]
      simp only [List.any_cons, List.any_nil, Bool.or_false, Bool.not_or]
      rw [← List.contains_eq_any_beq]
      rfl

theorem mem_dedupFirst : ∀ (l : List String) (a : String), a ∈ dedupFirst l ↔ a ∈ l
  | [], a => by simp [dedupFirst]
  | x :: xs, a => by
    rw [dedupFirst]
    rw [List.mem_cons, List.mem_cons]
    constructor
    · rintro (h | h)
      · exact Or.inl h
      · rw [List.mem_filter] at h
        exact Or.inr ((mem_dedupFirst xs a).mp h.1)
    · rintro (h | h)
      · exact Or.inl h
      · by_cases hax : a = x
        · exact Or.inl hax
        · refine Or.inr (List.mem_filter.mpr ⟨(mem_dedupFirst xs a).mpr h, ?_⟩)
          simp [bne, hax]

theorem zoneMarked_eq_dedupFirst (s : Sheet) :
    zoneMarked s = dedupFirst ((cellsOf s).filterMap (zoneHit s)) := by
  unfold zoneMarked
  rw [foldl_step_eq_filterMap_foldl
    (fun acc rc =>
      match zoneHit s rc with
      | some disp => if acc.contains disp then acc else acc ++ [disp]
      | Option.none => acc)
    (zoneHit s)
    (fun acc x => if acc.contains x then acc else acc ++ [x])
    (by
      intro d a
      cases h : zoneHit s a with
      | none => simp [h]
      | some b => simp [h])
    (cellsOf s) []]
  rw [foldl_insertAbsent]
  simp

theorem zoneHit_iff (s : Sheet) (r c : Nat) (lab : String) :
    zoneHit s (r, c) = some lab ↔
      (cellLabel (s.get r c) = some lab ∧ ∃ off, 1 ≤ off ∧ off ≤ 14 ∧
        pyTruthy (s.get r (c + off)) = true ∧
        markerSet.contains (pyUpper (pyStrip (pyStr (s.get r (c + off))))) = true) := by
  unfold zoneHit
  cases hcl : cellLabel (s.get r c) with
  | none => simp
  | some disp =>
    cases hp : zoneProbe s r c with
    | true =>
      simp only [eq_self_iff_true, if_true, Option.some.injEq]
      unfold zoneProbe at hp
      rw [List.any_eq_true] at hp
      obtain ⟨off, hoff, hpred⟩ := hp
      rw [List.mem_range'_1] at hoff
      rw [Bool.and_eq_true] at hpred
      constructor
      · intro h
        exact ⟨by rw [h], off, hoff.1, by omega, hpred.1, hpred.2⟩
      · rintro ⟨h, -⟩
        cases h
        rfl
    | false =>
      simp only [Bool.false_eq_true, if_false]
      constructor
      · intro h
        cases h
      · rintro ⟨hd, off, h1, h2, h3, h4⟩
        unfold zoneProbe at hp
        rw [← Bool.not_eq_true, List.any_eq_true] at hp
        exact absurd ⟨off, by rw [List.mem_range'_1]; omega,
          by rw [Bool.and_eq_true]; exact ⟨h3, h4⟩⟩ hp

theorem splitWS_cons_ws (c : Char) (cs : List Char) (h : c.isWhitespace = true) :
    splitWS (c :: cs) = splitWS cs := by
  show splitWSAux (c :: cs) [] = splitWSAux cs []
  conv_lhs => rw [splitWSAux]
  rw [h]
  simp

theorem splitWSAux_acc :
    ∀ (l acc : List Char), acc ≠ [] →
      splitWSAux l acc =
        (acc.reverse ++ l.takeWhile (fun x => !x.isWhitespace)) ::
          splitWS (l.dropWhile (fun x => !x.isWhitespace))
  | [], acc, h => by
    show splitWSAux [] acc = _
    conv_lhs => rw [splitWSAux]
    rw [if_neg (by simpa using h)]
    simp [splitWS, splitWSAux]
  | c :: cs, acc, h => by
    cases hc : c.isWhitespace with
    | true =>
      show splitWSAux (c :: cs) acc = _
      conv_lhs => rw [splitWSAux]
      rw [hc, if_pos rfl, if_neg (by simpa using h)]
      simp only [List.takeWhile_cons, List.dropWhile_cons, hc, Bool.not_true,
        Bool.false_eq_true, if_false, List.append_nil]
      rw [splitWS_cons_ws c cs hc]
      rfl
    | false =>
      show splitWSAux (c :: cs) acc = _
      conv_lhs => rw [splitWSAux]
      rw [hc]
      simp only [Bool.false_eq_true, if_false]
      rw [splitWSAux_acc cs (c :: acc) (by simp)]
      simp only [List.takeWhile_cons, List.dropWhile_cons, hc, Bool.not_false,
        eq_self_iff_true, if_true, List.reverse_cons, List.append_assoc,
        List.singleton_append]

theorem splitWS_cons_nws (c : Char) (cs : List Char) (h : c.isWhitespace = false) :
    splitWS (c :: cs) =
      (c :: cs.takeWhile (fun x => !x.isWhitespace)) ::
        splitWS (cs.dropWhile (fun x => !x.isWhitespace)) := by
  show splitWSAux (c :: cs) [] = _
  conv_lhs => rw [splitWSAux]
  rw [h]
  simp only [Bool.false_eq_true, if_false]
  rw [splitWSAux_acc cs [c] (by simp)]
  rfl

theorem mem_takeWhile_pred {p : Char → Bool} :
    ∀ (l : List Char) (x : Char), x ∈ l.takeWhile p → p x = true
  | [], x, h => by simp [List.takeWhile] at h
  | c :: cs, x, h => by
    rw [List.takeWhile_cons] at h
    cases hc : p c with
    | false => rw [hc] at h; simp at h
    | true =>
      rw [hc] at h
      simp only [eq_self_iff_true, if_true, List.mem_cons] at h
      rcases h with rfl | h
      · exact hc
      · exact mem_takeWhile_pred cs x h

theorem splitWS_tokens :
    ∀ (l : List Char), ∀ w ∈ splitWS l, w ≠ [] ∧ ∀ ch ∈ w, ch.isWhitespace = false
  | [] => by simp [splitWS, splitWSAux]
  | c :: cs => by
    cases hc : c.isWhitespace with
    | true =>
      rw [splitWS_cons_ws c cs hc]
      exact splitWS_tokens cs
    | false =>
      rw [splitWS_cons_nws c cs hc]
      intro w hw
      rcases List.mem_cons.mp hw with heq | hmem
      · subst heq
        refine ⟨by simp, ?_⟩
        intro ch hch
        rcases List.mem_cons.mp hch with rfl | hch
        · exact hc
        · have := mem_takeWhile_pred cs ch hch
          simpa using this
      · exact splitWS_tokens (cs.dropWhile (fun x => !x.isWhitespace)) w hmem
termination_by l => l.length
decreasing_by
  · simp only [List.length_cons]
    exact Nat.lt_succ_of_le (List.dropWhile_sublist _).length_le
  · simp only [List.length_cons]
    omega

theorem takeWhile_all_append (p : Char → Bool) :
    ∀ (l1 l2 : List Char), (∀ x ∈ l1, p x = true) →
      (l1 ++ l2).takeWhile p = l1 ++ l2.takeWhile p
  | [], l2, _ => by simp
  | a :: l1, l2, h => by
    rw [List.cons_append, List.takeWhile_cons, h a (by simp), List.cons_append]
    simp only [eq_self_iff_true, if_true]
    rw [takeWhile_all_append p l1 l2 (fun x hx => h x (by simp [hx]))]

theorem dropWhile_all_append (p : Char → Bool) :
    ∀ (l1 l2 : List Char), (∀ x ∈ l1, p x = true) →
      (l1 ++ l2).dropWhile p = l2.dropWhile p
  | [], l2, _ => by simp
  | a :: l1, l2, h => by
    rw [List.cons_append, List.dropWhile_cons, h a (by simp)]
    simp only [eq_self_iff_true, if_true]
    exact dropWhile_all_append p l1 l2 (fun x hx => h x (by simp [hx]))

theorem splitWS_joinSp :
    ∀ (ws : List (List Char)),
      (∀ w ∈ ws, w ≠ [] ∧ ∀ ch ∈ w, ch.isWhitespace = false) →
      splitWS (joinSp ws) = ws
  | [], _ => rfl
  | [w], h => by
    obtain ⟨hne, hchars⟩ := h w (by simp)
    cases w with
    | nil => exact absurd rfl hne
    | cons c cw =>
      show splitWS (c :: cw) = [c :: cw]
      rw [splitWS_cons_nws c cw (hchars c (by simp))]
      have ht : cw.takeWhile (fun x => !x.isWhitespace) = cw :=
        List.takeWhile_eq_self_iff.mpr (fun x hx => by simp [hchars x (by simp [hx])])
      have hd : cw.dropWhile (fun x => !x.isWhitespace) = [] := by
        rw [List.dropWhile_eq_nil_iff]
        intro x hx
        simp [hchars x (by simp [hx])]
      rw [ht, hd]
      rfl
  | w :: v :: ws, h => by
    obtain ⟨hne, hchars⟩ := h w (by simp)
    cases w with
    | nil => exact absurd rfl hne
    | cons c cw =>
      show splitWS ((c :: cw) ++ ' ' :: joinSp (v :: ws)) = (c :: cw) :: v :: ws
      rw [List.cons_append, splitWS_cons_nws c _ (hchars c (by simp))]
      have hcw : ∀ x ∈ cw, (fun x => !x.isWhitespace) x = true := by
        intro x hx
        simp [hchars x (by simp [hx])]
      rw [takeWhile_all_append _ cw _ hcw, dropWhile_all_append _ cw _ hcw]
      rw [List.takeWhile_cons, List.dropWhile_cons]
      have hsp : (' ').isWhitespace = true := by decide
      simp only [hsp, Bool.not_true, Bool.false_eq_true, if_false, List.append_nil]
      rw [splitWS_cons_ws ' ' _ (by decide)]
      rw [splitWS_joinSp (v :: ws) (fun x hx => h x (by simp [hx]))]

theorem joinSp_head_not_ws :
    ∀ (ws : List (List Char)),
      (∀ w ∈ ws, w ≠ [] ∧ ∀ ch ∈ w, ch.isWhitespace = false) →
      ∀ (c : Char) (cs : List Char), joinSp ws = c :: cs → c.isWhitespace = false
  | [], _, c, cs, hj => by simp [joinSp] at hj
  | [w], h, c, cs, hj => by
    obtain ⟨hne, hchars⟩ := h w (by simp)
    have hw : w = c :: cs := hj
    exact hchars c (by rw [hw]; simp)
  | w :: v :: ws, h, c, cs, hj => by
    obtain ⟨hne, hchars⟩ := h w (by simp)
    cases w with
    | nil => exact absurd rfl hne
    | cons c0 cw =>
      have hw : c0 :: (cw ++ ' ' :: joinSp (v :: ws)) = c :: cs := hj
      have hc0 : c0 = c := by
        have := congrArg (fun l => l.headD ' ') hw
        simpa using this
      exact hc0 ▸ hchars c0 (by simp)

theorem joinSp_ne_nil :
    ∀ (ws : List (List Char)),
      (∀ w ∈ ws, w ≠ [] ∧ ∀ ch ∈ w, ch.isWhitespace = false) →
      ws ≠ [] → joinSp ws ≠ []
  | [], _, hne => absurd rfl hne
  | [w], h, _ => by
    obtain ⟨hw, -⟩ := h w (by simp)
    simpa [joinSp] using hw
  | w :: v :: ws, h, _ => by
    obtain ⟨hw, -⟩ := h w (by simp)
    show w ++ ' ' :: joinSp (v :: ws) ≠ []
    simp

theorem joinSp_reverse_head :
    ∀ (ws : List (List Char)),
      (∀ w ∈ ws, w ≠ [] ∧ ∀ ch ∈ w, ch.isWhitespace = false) →
      joinSp ws = [] ∨
        ∃ c cs, (joinSp ws).reverse = c :: cs ∧ c.isWhitespace = false
  | [], _ => Or.inl rfl
  | [w], h => by
    obtain ⟨hne, hchars⟩ := h w (by simp)
    refine Or.inr ?_
    cases hrev : w.reverse with
    | nil => exact absurd (by simpa using congrArg List.reverse hrev) hne
    | cons c cs =>
      refine ⟨c, cs, hrev, ?_⟩
      have hcmem : c ∈ w := by
        rw [← List.mem_reverse, hrev]
        simp
      exact hchars c hcmem
  | w :: v :: ws, h => by
    refine Or.inr ?_
    rcases joinSp_reverse_head (v :: ws) (fun x hx => h x (by simp [hx])) with
      hnil | ⟨c, cs, hrev, hc⟩
    · exact absurd hnil (joinSp_ne_nil (v :: ws) (fun x hx => h x (by simp [hx])) (by simp))
    · refine ⟨c, cs ++ ' ' :: w.reverse, ?_, hc⟩
      show (w ++ ' ' :: joinSp (v :: ws)).reverse = _
      rw [List.reverse_append, List.reverse_cons, hrev]
      simp

theorem stripWS_joinSp (ws : List (List Char))
    (h : ∀ w ∈ ws, w ≠ [] ∧ ∀ ch ∈ w, ch.isWhitespace = false) :
    stripWS (joinSp ws) = joinSp ws := by
  unfold stripWS
  cases hj : joinSp ws with
  | nil => rfl
  | cons c cs =>
    have hc : c.isWhitespace = false := joinSp_head_not_ws ws h c cs hj
    rw [List.dropWhile_cons, hc]
    simp only [Bool.false_eq_true, if_false]
    rcases joinSp_reverse_head ws h with hnil | ⟨c2, cs2, hrev, hc2⟩
    · rw [hnil] at hj
      cases hj
    · rw [hj] at hrev
      rw [hrev, List.dropWhile_cons, hc2]
      simp only [Bool.false_eq_true, if_false]
      rw [← hrev, List.reverse_reverse]

/-- C1 corrected: projection maps each input row through `map_row`; the
projected row's key set is the schema column set plus, when some mapping
targets `Ad Zone Id`, that one key (its assignment is not guarded by
schema membership) — every schema column is present and no other
non-schema key is ever added. -/
theorem c1_keyset_amended :
    (∀ (template : List String) (input_data : List (List (String × Value)))
       (mappings : List ColumnMapping) (azid : String),
      map_data_to_output template input_data mappings azid =
        input_data.map (map_row template mappings azid)) ∧
    (∀ (template : List String) (mappings : List ColumnMapping) (azid : String)
       (input_row : List (String × Value)) (x : String),
      dictContains (map_row template mappings azid input_row) x = true ↔
        (x ∈ template ∨
          (x = "Ad Zone Id" ∧ ∃ m ∈ mappings, m.output_column_name = "Ad Zone Id"))) := by
  constructor
  · intro template input_data mappings azid
    have := foldl_append_map (map_row template mappings azid) input_data []
    simpa using this
  · intro template mappings azid input_row x
    unfold map_row
    rw [map_row_fold_keys azid input_row mappings _ x,
      template_init_keys template [] x]
    simp [dictContains]

/-- C6 corrected: the zone result joins, with `' ~'`, the de-duplicated
(first-occurrence order) display strings of the row-major scan's hits; a
cell hits exactly when its first matching label's probe finds a marker
within 14 columns to the right (`range(1, 15)` probes offsets 1..14, not
15); a label appears in the collection iff some cell hits it; and the
two-label example joins to `TPR All Stores ~TPR Price Chopper`. -/
theorem c6_zone_amended :
    (∀ s : Sheet, extract_ad_zone_id s =
      pyJoin (" ~") (dedupFirst ((cellsOf s).filterMap (zoneHit s)))) ∧
    (∀ (s : Sheet) (lab : String),
      lab ∈ zoneMarked s ↔ ∃ rc ∈ cellsOf s, zoneHit s rc = some lab) ∧
    (∀ (s : Sheet) (r c : Nat) (lab : String),
      zoneHit s (r, c) = some lab ↔
        (cellLabel (s.get r c) = some lab ∧ ∃ off, 1 ≤ off ∧ off ≤ 14 ∧
          pyTruthy (s.get r (c + off)) = true ∧
          markerSet.contains (pyUpper (pyStrip (pyStr (s.get r (c + off))))) = true)) ∧
    extract_ad_zone_id wsZonePair = "TPR All Stores ~TPR Price Chopper" := by
  refine ⟨?_, ?_, zoneHit_iff, by decide⟩
  · intro s
    unfold extract_ad_zone_id
    rw [zoneMarked_eq_dedupFirst]
  · intro s lab
    rw [zoneMarked_eq_dedupFirst, mem_dedupFirst, List.mem_filterMap]

/-- C1 witness: in the counterexample configuration the schema column
`A` is present in the projected row. -/
theorem c1_keyset_amended_witness :
    dictContains (map_row tmplA [adZoneMapping] ("Z") []) ("A") = true :=
  (c1_keyset_amended.2 tmplA [adZoneMapping] ("Z") [] ("A")).mpr (Or.inl (by decide))

/-- C6 witness: on the two-label sheet, the first label is recorded
because cell (1, 1) hits. -/
theorem c6_zone_amended_witness :
    ("TPR All Stores") ∈ zoneMarked wsZonePair :=
  (c6_zone_amended.2.1 wsZonePair ("TPR All Stores")).mpr ⟨(1, 1), by decide, by decide⟩

/-- C9: header-name normalization (collapse interior whitespace runs to
single spaces, trim the ends) is idempotent. -/
theorem c9_normalize_idempotent (s : String) :
    normalize_column_name (normalize_column_name s) = normalize_column_name s := by
  unfold normalize_column_name
  by_cases hs : s = ""
  · simp [hs]
  · rw [if_neg hs]
    have hgood := splitWS_tokens s.data
    have hstrip : stripWS (joinSp (splitWS s.data)) = joinSp (splitWS s.data) :=
      stripWS_joinSp _ hgood
    rw [hstrip]
    by_cases hmk : String.mk (joinSp (splitWS s.data)) = ""
    · rw [if_pos hmk]
    · rw [if_neg hmk]
      show String.mk (stripWS (joinSp (splitWS (joinSp (splitWS s.data))))) = _
      rw [splitWS_joinSp (splitWS s.data) hgood, hstrip]

end DealSub
